import Mathlib

/-!
Shallow embedding of the aggregation script
src/Bunseki-Shukei/scripts/shukei-bunseki20250930_100635.py.

Modelling conventions:
- Text (sheet names, grade cells, file stems) is modelled as List Char.
- pandas timestamps are modelled as Int through an order-preserving encoding
  (dt below); to_datetime parse failures (NaT) are none.
- Numeric scores are Int (an ordered domain with the sums, maxima and
  comparisons the script applies to them; fractional inputs affect no claim);
  means are formed in Rat at the summarisation step only. to_numeric parse
  failures (NaN) are none.
- A spreadsheet column located by the column heuristics of the script
  (generator expressions over df.columns, and _read_kdate_series) is modelled
  as a Bool flag on the sheet plus a cell per row; clean_cols whitespace
  normalisation is absorbed into those flags.
- Row order of pandas frames is abstracted: grouped and merged frames are
  built in first-appearance key order, and the claims are stated through
  membership, so no theorem depends on the row order.
-/

/-- Whitespace as matched by the Python regex class for spaces and str.strip,
restricted to the characters occurring in this domain: ASCII whitespace plus
the ideographic space and the no-break space. -/
def isPySpace (c : Char) : Bool := c.isWhitespace || c = '　' || c = ' '

/-- Decimal digits as matched by the Python regex digit class: ASCII digits
plus the full-width digits. -/
def isPyDigit (c : Char) : Bool := c.isDigit || ('０' ≤ c && c ≤ '９')

/-- Numeric value of a (possibly full-width) decimal digit, as used by int(). -/
def digitVal (c : Char) : Nat := if c.isDigit then c.toNat - 48 else c.toNat - 65296

/-- int() applied to a run of decimal digits. -/
def digitsToNat (l : List Char) : Nat := l.foldl (fun a c => 10 * a + digitVal c) 0

/-- Case-insensitive character-list equality (the re.I flag of the sheet-name
pattern). -/
def caseEqList : List Char → List Char → Bool
  | [], [] => true
  | a :: as, b :: bs => decide (a.toLower = b.toLower) && caseEqList as bs
  | _, _ => false

/-- re.sub applied with the whitespace class and empty replacement: removes
every whitespace character (the norm helper inside _sheets_for_targets). -/
def normWS (s : List Char) : List Char := s.filter (fun c => !(isPySpace c))

/-- The str.maketrans table of normalize_grade_val: full-width digits to ASCII
digits, ideographic space to ASCII space; every other character is unchanged. -/
def jpDigitTr (c : Char) : Char :=
  if '０' ≤ c && c ≤ '９' then Char.ofNat (c.toNat - 65248)
  else if c = '　' then ' ' else c

/-- str.strip: removes leading and trailing whitespace. -/
def pyStrip (s : List Char) : List Char :=
  ((s.dropWhile isPySpace).reverse.dropWhile isPySpace).reverse

/-- After the grade-3 kanji marker, the regex allows whitespace and then the
digit 3 (the first alternative of the grade-3 pattern). -/
def koTail : List Char → Bool
  | [] => false
  | c :: cs => if isPySpace c then koTail cs else decide (c = '3')

/-- Word characters for the Python word-boundary assertion: ASCII
alphanumerics, the underscore, and (with Unicode matching) every letter-like
character; all non-ASCII characters occurring in this domain (kana and kanji)
are word characters, modelled as code points above 127. -/
def isPyWord (c : Char) : Bool := c.isAlphanum || c = '_' || 127 < c.toNat

/-- A word boundary holds at the string edge or next to a non-word char. -/
def boundaryOk : Option Char → Bool
  | none => true
  | some c => !(isPyWord c)

/-- Scanner for re.search with the grade-3 pattern: at each position, try the
kanji-then-3 alternative, the 3-then-year-kanji alternative, and the
word-bounded bare 3 alternative; prev carries the preceding character for the
left word boundary. -/
def grade3From (prev : Option Char) : List Char → Bool
  | [] => false
  | c :: cs =>
      (decide (c = '高') && koTail cs)
      || (decide (c = '3') && decide (cs.head? = some '年'))
      || (decide (c = '3') && boundaryOk prev && boundaryOk cs.head?)
      || grade3From (some c) cs

/-- re.search of the grade-3 marker pattern over the whole string. -/
def grade3Search (s : List Char) : Bool := grade3From none s

/-- normalize_grade_val: translate full-width digits, strip, then class as
grade 3 exactly when the grade-3 regex matches. -/
def normalize_grade_val (x : List Char) : List Char :=
  if grade3Search (pyStrip (x.map jpDigitTr)) then "高3".data else "高1+2".data

/-- The marker that identifies an exam-results sheet in pick_exam_sheets. -/
def examMarker : List Char := "合同共テ結果".data

/-- Python substring containment (the in operator on str). -/
def containsTok (tok s : List Char) : Bool := decide (tok <:+: s)

/-- The compiled sheet-name pattern of _sheets_for_targets, applied to the
whitespace-stripped sheet name: four digits, then arbitrary text, then the
whitespace-stripped target, anchored at the end, case-insensitive. -/
def sheetMatches (tgt s : List Char) : Bool :=
  let sn := normWS s
  let tn := normWS tgt
  decide (4 + tn.length ≤ sn.length)
  && (sn.take 4).all isPyDigit
  && caseEqList (sn.drop (sn.length - tn.length)) tn

/-- _sheets_for_targets: each sheet name is paired with the first target in
catalog order whose pattern it matches; unmatched sheets are dropped. -/
def _sheets_for_targets (sheetNames targets : List (List Char)) :
    List ((List Char) × (List Char)) :=
  sheetNames.filterMap (fun s =>
    (targets.find? (fun t => sheetMatches t s)).map (fun t => (t, s)))

/-- Leftmost run of n consecutive digits in a string (re.search with a
fixed-width digit group). -/
def firstDigitRun (n : Nat) : List Char → Option (List Char)
  | [] => none
  | c :: cs =>
      if decide (n ≤ (c :: cs).length) && ((c :: cs).take n).all isPyDigit then
        some ((c :: cs).take n)
      else firstDigitRun n cs

/-- Order-preserving encoding of a calendar date as an integer. -/
def dt (y m d : Nat) : Int := ((y * 10000 + m * 100 + d : Nat) : Int)

/-- The fixed calendar EXAM_CUTOFF_BY_YEAR of the script. -/
def EXAM_CUTOFF_BY_YEAR : List (Nat × Int) :=
  [(2023, dt 2023 1 17), (2024, dt 2024 1 17), (2025, dt 2025 1 18)]

/-- Dict.get on the fixed calendar. -/
def calLookup (y : Nat) : Option Int :=
  (EXAM_CUTOFF_BY_YEAR.find? (fun p => decide (p.1 = y))).map (fun p => p.2)

/-- Lookup in the manual override mapping (keyed by the 6-digit run). -/
def ovLookup (ov : List ((List Char) × Int)) (k : List Char) : Option Int :=
  (ov.find? (fun p => decide (p.1 = k))).map (fun p => p.2)

/-- detect_year_from_stem: 6-digit run preferred (first 4 digits), else a
4-digit run. -/
def detect_year_from_stem (stem : List Char) : Option Nat :=
  match firstDigitRun 6 stem with
  | some k6 => some (digitsToNat (k6.take 4))
  | none => (firstDigitRun 4 stem).map digitsToNat

/-- cutoff_for_stem: override on the literal 6-digit run wins; else the fixed
calendar at year-plus-one; a stem without a 6-digit run falls back to
detect_year_from_stem, with the Python falsiness test on the year. -/
def cutoff_for_stem (stem : List Char) (ov : List ((List Char) × Int)) :
    Option Int :=
  match firstDigitRun 6 stem with
  | some k6 =>
      match ovLookup ov k6 with
      | some d => some d
      | none => calLookup (digitsToNat (k6.take 4) + 1)
  | none =>
      match detect_year_from_stem stem with
      | some y => if y = 0 then none else calLookup (y + 1)
      | none => none

/-- One spreadsheet row, holding the cells the script can read: the numeric
coercion of the student-id cell, the raw grade cell, the four score cells
(to_numeric, none on failure), and the completion-date cell (to_datetime,
none on failure). -/
structure CellRow where
  idnum : Option Int
  gradeRaw : List Char
  eng : Option Int
  m1 : Option Int
  m2 : Option Int
  jpn : Option Int
  kdate : Option Int
  deriving DecidableEq

/-- One sheet: its name and the outcome of the column-locating heuristics
(hasEng for the English column, hasId for the student-id column, hasGrade for
the grade column, hasMath1 and hasMath2 for the two math sub-columns, hasJpn
for the Japanese column, hasKdate for the completion-date column found by
_read_kdate_series). -/
structure Sheet where
  name : List Char
  hasEng : Bool
  hasId : Bool
  hasGrade : Bool
  hasMath1 : Bool
  hasMath2 : Bool
  hasJpn : Bool
  hasKdate : Bool
  rows : List CellRow
  deriving DecidableEq

/-- The target that _sheets_for_targets pairs a given sheet with (first match
in catalog order), if any. -/
def assignedTarget (targets : List (List Char)) (s : Sheet) : Option (List Char) :=
  targets.find? (fun t => sheetMatches t s.name)

/-- The sheets the per-target loop of count_mastery and count_late_mastery
actually reads for a unit: paired with that unit by _sheets_for_targets and
passing the student-id-column and completion-date-column guards. -/
def unitSheets (wb : List Sheet) (targets : List (List Char)) (tgt : List Char) :
    List Sheet :=
  wb.filter (fun s =>
    decide (assignedTarget targets s = some tgt) && s.hasId && s.hasKdate)

/-- Int image of a Bool (astype(int) on a boolean column). -/
def natOfBool (b : Bool) : Nat := bif b then 1 else 0

/-- The per-row completed flag of count_mastery: dates.notna() combined with
the cutoff comparison when a cutoff is present, else with dates.notna()
again; a missing date compares false against the cutoff. -/
def rowCompleted (d cutoff : Option Int) : Bool :=
  match cutoff with
  | some c => d.isSome && (match d with | some x => decide (x ≤ c) | none => false)
  | none => d.isSome && d.isSome

/-- Keys column of a keyed frame. -/
def keysOf {α : Type} (f : List (Int × α)) : List Int := f.map Prod.fst

/-- Values stored under a key in a keyed frame. -/
def valsFor {α : Type} (f : List (Int × α)) (k : Int) : List α :=
  (f.filter (fun p => decide (p.1 = k))).map Prod.snd

/-- Maximum of a list of naturals (groupby max on 0/1 flags). -/
def foldMax (l : List Nat) : Nat := l.foldr max 0

/-- groupby on the key taking the max of the values; pandas sorts groups by
key, modelled here in first-appearance order (claims are order-independent). -/
def groupMax (rows : List (Int × Nat)) : List (Int × Nat) :=
  (keysOf rows).dedup.map (fun k => (k, foldMax (valsFor rows k)))

/-- The per-sheet (student_id, completed) pairs of count_mastery, after the
numeric-id coercion drops unparseable ids. -/
def idFlagRows (cutoff : Option Int) (s : Sheet) : List (Int × Nat) :=
  s.rows.filterMap (fun r =>
    r.idnum.map (fun i => (i, natOfBool (rowCompleted r.kdate cutoff))))

/-- The per-sheet grouped frame of count_mastery (one row per student, max of
the 0/1 flags). -/
def sheetMasteryFrame (cutoff : Option Int) (s : Sheet) : List (Int × Nat) :=
  groupMax (idFlagRows cutoff s)

/-- The per-unit frame of count_mastery: the per-sheet frames are concatenated
and grouped again by student taking the max. -/
def tgtMasteryFrame (wb : List Sheet) (targets : List (List Char))
    (cutoff : Option Int) (tgt : List Char) : List (Int × Nat) :=
  groupMax ((unitSheets wb targets tgt).flatMap (sheetMasteryFrame cutoff))

/-- The values a left or outer merge produces for a key against one frame:
every stored value, or the single fillna(0) value when the key is absent. -/
def pickVals (f : List (Int × Nat)) (k : Int) : List Nat :=
  let vs := valsFor f k
  if vs.isEmpty then [0] else vs

/-- All ways of choosing one value from each list (the row multiplicity a
chain of merges produces for one key). -/
def allPicks : List (List Nat) → List (List Nat)
  | [] => [[]]
  | c :: cs => c.flatMap (fun x => (allPicks cs).map (fun xs => x :: xs))

/-- The chained outer merge over the per-target frames followed by fillna(0):
for each student in the union of the keys, one row per combination of stored
values (a frame with duplicate keys multiplies the rows, as pandas merge
does). -/
def mergeChain (perTarget : List (List (Int × Nat))) : List (Int × List Nat) :=
  ((perTarget.flatMap keysOf).dedup).flatMap (fun k =>
    (allPicks (perTarget.map (fun f => pickVals f k))).map (fun combo => (k, combo)))

/-- count_mastery: per-unit OR-reduced flags, outer-merged across the catalog
with absent treated as 0, then summed per row into mas_count. -/
def count_mastery (wb : List Sheet) (targets : List (List Char))
    (cutoff : Option Int) : List (Int × Nat) :=
  if targets.isEmpty then []
  else
    (mergeChain (targets.map (tgtMasteryFrame wb targets cutoff))).map
      (fun p => (p.1, p.2.sum))

/-- Minimum of two optional dates skipping missing values (groupby min over a
date column with NaT entries). -/
def minOpt : Option Int → Option Int → Option Int
  | none, b => b
  | some a, none => some a
  | some a, some b => some (min a b)

/-- Minimum of a list of optional dates, none when no date is present. -/
def foldMin (l : List (Option Int)) : Option Int := l.foldr minOpt none

/-- The per-sheet (student_id, date) pairs of count_late_mastery. -/
def idDateRows (s : Sheet) : List (Int × Option Int) :=
  s.rows.filterMap (fun r => r.idnum.map (fun i => (i, r.kdate)))

/-- groupby on the key taking the min of the dates. -/
def groupMin (rows : List (Int × Option Int)) : List (Int × Option Int) :=
  (keysOf rows).dedup.map (fun k => (k, foldMin (valsFor rows k)))

/-- The per-sheet grouped frame of count_late_mastery (earliest date per
student within one sheet). -/
def sheetLateFrame (s : Sheet) : List (Int × Option Int) :=
  groupMin (idDateRows s)

/-- The late flag: date strictly after the cutoff; a missing date is false
(NaT compares false, and fillna(False) keeps it false). -/
def lateFlag (d : Option Int) (c : Int) : Bool :=
  match d with | some x => decide (c < x) | none => false

/-- The per-unit frame of count_late_mastery: the per-sheet grouped frames are
concatenated WITHOUT another groupby, then each row is flagged; a student
appearing in several matching sheets of the same unit therefore keeps one row
per sheet. -/
def tgtLateFrame (wb : List Sheet) (targets : List (List Char)) (c : Int)
    (tgt : List Char) : List (Int × Nat) :=
  ((unitSheets wb targets tgt).flatMap sheetLateFrame).map
    (fun p => (p.1, natOfBool (lateFlag p.2 c)))

/-- count_late_mastery: empty when no cutoff is resolved; else the per-unit
late flags outer-merged across the catalog with absent treated as 0 and
summed per row into late_count. -/
def count_late_mastery (wb : List Sheet) (targets : List (List Char))
    (cutoff : Option Int) : List (Int × Nat) :=
  match cutoff with
  | none => []
  | some c =>
      if targets.isEmpty then []
      else
        (mergeChain (targets.map (tgtLateFrame wb targets c))).map
          (fun p => (p.1, p.2.sum))

/-- Maximum of two optional scores skipping missing values (groupby max over
a score column with NaN entries). -/
def maxOptQ : Option Int → Option Int → Option Int
  | none, b => b
  | some a, none => some a
  | some a, some b => some (max a b)

/-- Maximum of a list of optional scores, none when every value is missing. -/
def foldMaxQ (l : List (Option Int)) : Option Int := l.foldr maxOptQ none

/-- One extracted row of the per-student score table of read_exam. -/
structure BaseRow where
  sid : Int
  grade : List Char
  eng : Option Int
  math : Option Int
  jpn : Option Int
  deriving DecidableEq

/-- pick_exam_sheets: keep the sheets whose name contains the marker. -/
def pick_exam_sheets (wb : List Sheet) : List Sheet :=
  wb.filter (fun s => containsTok examMarker s.name)

/-- The per-sheet extraction of read_exam: a sheet lacking the English,
student-id, or grade column is skipped whole; rows with an unparseable
student id are dropped; the math score is the fillna(0) sum of the two math
sub-columns when both columns exist and missing entirely otherwise; the
Japanese score is taken only when its column exists. -/
def examSubRows (s : Sheet) : List BaseRow :=
  if s.hasEng && s.hasId && s.hasGrade then
    s.rows.filterMap (fun r =>
      r.idnum.map (fun i =>
        { sid := i
          grade := normalize_grade_val r.gradeRaw
          eng := r.eng
          math := if s.hasMath1 && s.hasMath2 then some (r.m1.getD 0 + r.m2.getD 0) else none
          jpn := if s.hasJpn then r.jpn else none }))
  else []

/-- read_exam: concatenate the qualifying sheets, then group by the pair of
student id and normalized grade, taking the max of each score column. -/
def read_exam (wb : List Sheet) : List BaseRow :=
  let subs := (pick_exam_sheets wb).flatMap examSubRows
  ((subs.map (fun b => (b.sid, b.grade))).dedup).map (fun kg =>
    let grp := subs.filter (fun b => decide (b.sid = kg.1) && decide (b.grade = kg.2))
    { sid := kg.1
      grade := kg.2
      eng := foldMaxQ (grp.map (fun b => b.eng))
      math := foldMaxQ (grp.map (fun b => b.math))
      jpn := foldMaxQ (grp.map (fun b => b.jpn)) })

/-- One row of the per-file merged student panel built in main. -/
structure PanelRow where
  sid : Int
  grade : List Char
  eng : Option Int
  math : Option Int
  jpn : Option Int
  eng_mas : Nat
  math_mas : Nat
  tot_mas : Nat
  eng_late : Nat
  math_late : Nat
  deriving DecidableEq

/-- The English unit catalog ENG_TARGETS. -/
def ENG_TARGETS : List (List Char) :=
  ["英単語1800".data, "英熟語750".data, "英文法750".data,
   "英例文300".data, "上級英単語1000".data, "上級英熟語500".data]

/-- The Math unit catalog MATH_TARGETS. -/
def MATH_TARGETS : List (List Char) :=
  ["数学Ⅰ".data, "数学A".data, "数学Ⅱ".data, "数学B".data,
   "数学ⅠA上級".data, "数学ⅡB上級".data]

/-- The per-file merged panel of main: the score table left-merged with the
two mastery tables (fillna 0), tot_mas computed as their sum, then
left-merged with the two late tables (fillna 0). A left merge keeps exactly
the left keys; a right frame with duplicate keys duplicates the row, modelled
by pickVals. -/
def filePanel (wb : List Sheet) (cutoff : Option Int) : List PanelRow :=
  let base := read_exam wb
  let engM := count_mastery wb ENG_TARGETS cutoff
  let mathM := count_mastery wb MATH_TARGETS cutoff
  let engL := count_late_mastery wb ENG_TARGETS cutoff
  let mathL := count_late_mastery wb MATH_TARGETS cutoff
  base.flatMap (fun b =>
    (pickVals engM b.sid).flatMap (fun e =>
      (pickVals mathM b.sid).flatMap (fun m =>
        (pickVals engL b.sid).flatMap (fun el =>
          (pickVals mathL b.sid).map (fun ml =>
            { sid := b.sid, grade := b.grade, eng := b.eng, math := b.math,
              jpn := b.jpn, eng_mas := e, math_mas := m, tot_mas := e + m,
              eng_late := el, math_late := ml })))))

/-- One input workbook of main: the file name, the file-name stem, and the
sheets (path handling lives in the excluded CLI layer). -/
structure FileInput where
  fname : List Char
  stem : List Char
  sheets : List Sheet
  deriving DecidableEq

/-- The concatenated panel over all input files. -/
def mainPanel (files : List FileInput) (ov : List ((List Char) × Int)) :
    List PanelRow :=
  files.flatMap (fun f => filePanel f.sheets (cutoff_for_stem f.stem ov))

/-- A generic row for the summarisation step: student id, normalized grade,
the bucketing key value, and the score column. -/
structure SRow where
  sid : Int
  grade : List Char
  keyval : Nat
  score : Option Int
  deriving DecidableEq

/-- First cohort label. -/
def cohortA : List Char := "高1+2".data

/-- Second cohort label. -/
def cohortB : List Char := "高3".data

/-- The dense template grid of summarize_long and summarize_distribution:
both cohorts crossed with every bucket from 0 to max_val. -/
def denseGrid (maxVal : Nat) : List ((List Char) × Nat) :=
  [cohortA, cohortB].flatMap (fun g =>
    (List.range (maxVal + 1)).map (fun b => (g, b)))

/-- Round to the nearest integer, ties to even (the rounding of pandas
round; means are modelled in exact arithmetic). -/
def roundHalfEven (q : ℚ) : ℤ :=
  let f := ⌊q⌋
  let r := q - (f : ℚ)
  if r < 1/2 then f
  else if 1/2 < r then f + 1
  else if f % 2 = 0 then f else f + 1

/-- round(1) of pandas applied to a mean. -/
def round1 (q : ℚ) : ℚ := ((roundHalfEven (q * 10) : ℤ) : ℚ) / 10

/-- One row of a long table: cohort, bucket, headcount, rounded mean score
(none when the cell is empty). -/
structure LongRow where
  cohort : List Char
  bucket : Nat
  headcount : Nat
  meanScore : Option ℚ
  deriving DecidableEq

/-- The rows aggregated into one cell of a long table: score present (the
dropna on the score column), matching cohort, matching bucket. -/
def cellRows (rows : List SRow) (g : List Char) (b : Nat) : List SRow :=
  rows.filter (fun r =>
    r.score.isSome && decide (r.grade = g) && decide (r.keyval = b))

/-- summarize_long: the dense grid left-joined onto the per-cell aggregates;
an empty cell keeps headcount 0 (fillna) and a missing mean; headcount is the
distinct-student count and the mean is over the group rows, rounded to one
decimal. -/
def summarize_long (rows : List SRow) (maxVal : Nat) : List LongRow :=
  (denseGrid maxVal).map (fun gb =>
    let grp := cellRows rows gb.1 gb.2
    { cohort := gb.1
      bucket := gb.2
      headcount := ((grp.map (fun r => r.sid)).dedup).length
      meanScore :=
        if grp.isEmpty then none
        else some (round1 (((grp.filterMap (fun r => r.score)).sum : ℚ) / (grp.length : ℚ))) })

/-- One row of a distribution table: cohort, bucket, headcount. -/
structure DistRow where
  cohort : List Char
  bucket : Nat
  headcount : Nat
  deriving DecidableEq

/-- The rows counted into one cell of a distribution table (no score
condition). -/
def distCellRows (rows : List SRow) (g : List Char) (b : Nat) : List SRow :=
  rows.filter (fun r => decide (r.grade = g) && decide (r.keyval = b))

/-- summarize_distribution: the dense grid with the distinct-student
headcount per cell, empty cells filled with 0. -/
def summarize_distribution (rows : List SRow) (maxVal : Nat) : List DistRow :=
  (denseGrid maxVal).map (fun gb =>
    { cohort := gb.1
      bucket := gb.2
      headcount := (((distCellRows rows gb.1 gb.2).map (fun r => r.sid)).dedup).length })

/-- Insertion into a sorted list of naturals. -/
def insertLe (x : Nat) : List Nat → List Nat
  | [] => [x]
  | y :: ys => if x ≤ y then x :: y :: ys else y :: insertLe x ys

/-- Ascending insertion sort (the sorted index of a pivot table). -/
def sortNat (l : List Nat) : List Nat := l.foldr insertLe []

/-- The pivoted cell value of summarize_wide: the first non-missing mean of
the long rows at that cohort and bucket (aggfunc first). -/
def wideVal (long : List LongRow) (g : List Char) (b : Nat) : Option ℚ :=
  ((long.filter (fun r => decide (r.cohort = g) && decide (r.bucket = b))).filterMap
    (fun r => r.meanScore)).head?

/-- A wide table: which cohort columns the pivot keeps (pivot_table with
dropna drops a column whose entries are all missing, and the final column
selection keeps only the surviving cohorts), and one row per bucket that has
at least one non-missing mean. -/
structure WideTable where
  keep12 : Bool
  keep3 : Bool
  rows : List (Nat × Option ℚ × Option ℚ)
  deriving DecidableEq

/-- summarize_wide: pivot the long table to one row per bucket with one mean
column per cohort. -/
def summarize_wide (long : List LongRow) : WideTable :=
  let buckets := sortNat ((long.map (fun r => r.bucket)).dedup)
  { keep12 := buckets.any (fun b => (wideVal long cohortA b).isSome)
    keep3 := buckets.any (fun b => (wideVal long cohortB b).isSome)
    rows := (buckets.filter (fun b =>
        (wideVal long cohortA b).isSome || (wideVal long cohortB b).isSome)).map
      (fun b => (b, wideVal long cohortA b, wideVal long cohortB b)) }

/-- One row of the run-metadata sheet: run timestamp, source file name,
resolved key (the stem), resolved cutoff (none renders as the empty cell),
and the distinct-student count of that file's merged panel. -/
structure MetaRow where
  runTs : List Char
  fileName : List Char
  keyStem : List Char
  cutoffDate : Option Int
  nStudents : Nat
  deriving DecidableEq

/-- The run-metadata row main builds for one input file. -/
def metaRowFor (runTs : List Char) (ov : List ((List Char) × Int))
    (f : FileInput) : MetaRow :=
  let c := cutoff_for_stem f.stem ov
  { runTs := runTs
    fileName := f.fname
    keyStem := f.stem
    cutoffDate := c
    nStudents := ((filePanel f.sheets c).map (fun p => p.sid)).dedup.length }

/-- The payload of one output sheet. -/
inductive WTable where
  | longT : List LongRow → WTable
  | wideT : WideTable → WTable
  | distT : List DistRow → WTable
  | metaT : List MetaRow → WTable
  deriving DecidableEq

/-- The panel columns feeding the English long table. -/
def engSRows (panel : List PanelRow) : List SRow :=
  panel.map (fun p => ⟨p.sid, p.grade, p.eng_mas, p.eng⟩)

/-- The panel columns feeding the Math long table. -/
def mathSRows (panel : List PanelRow) : List SRow :=
  panel.map (fun p => ⟨p.sid, p.grade, p.math_mas, p.math⟩)

/-- The panel columns feeding the Japanese long table (bucketed by tot_mas). -/
def jpnSRows (panel : List PanelRow) : List SRow :=
  panel.map (fun p => ⟨p.sid, p.grade, p.tot_mas, p.jpn⟩)

/-- The panel columns feeding the English late-count distribution. -/
def engLateSRows (panel : List PanelRow) : List SRow :=
  panel.map (fun p => ⟨p.sid, p.grade, p.eng_late, none⟩)

/-- The panel columns feeding the Math late-count distribution. -/
def mathLateSRows (panel : List PanelRow) : List SRow :=
  panel.map (fun p => ⟨p.sid, p.grade, p.math_late, none⟩)

/-- The sheet titles main writes, in creation order: the active sheet first,
then the eight save_sheet calls. -/
def outputSheetTitles : List (List Char) :=
  ["英語マスター×平均英語（長）".data,
   "数学マスター×平均数学（長）".data,
   "英数合計×平均国語（長）".data,
   "棒グラフ用_英語（横）".data,
   "棒グラフ用_数学（横）".data,
   "棒グラフ用_国語（横）".data,
   "参考_英語 締切超過数の分布".data,
   "参考_数学 締切超過数の分布".data,
   "集計メタデータ".data]

/-- The output workbook of main: none when there are no input files (the
no-data early return), else the titled sheets in creation order. Styling
(fonts, widths, freeze panes) is out of scope. -/
def mainWorkbook (files : List FileInput) (ov : List ((List Char) × Int))
    (runTs : List Char) : Option (List ((List Char) × WTable)) :=
  if files.isEmpty then none
  else
    let panel := mainPanel files ov
    let tEng := summarize_long (engSRows panel) 6
    let tMath := summarize_long (mathSRows panel) 6
    let tJpn := summarize_long (jpnSRows panel) 12
    some
      [("英語マスター×平均英語（長）".data, WTable.longT tEng),
       ("数学マスター×平均数学（長）".data, WTable.longT tMath),
       ("英数合計×平均国語（長）".data, WTable.longT tJpn),
       ("棒グラフ用_英語（横）".data, WTable.wideT (summarize_wide tEng)),
       ("棒グラフ用_数学（横）".data, WTable.wideT (summarize_wide tMath)),
       ("棒グラフ用_国語（横）".data, WTable.wideT (summarize_wide tJpn)),
       ("参考_英語 締切超過数の分布".data,
         WTable.distT (summarize_distribution (engLateSRows panel) 6)),
       ("参考_数学 締切超過数の分布".data,
         WTable.distT (summarize_distribution (mathLateSRows panel) 6)),
       ("集計メタデータ".data, WTable.metaT (files.map (metaRowFor runTs ov)))]

/-- Spec side (claim C1): the per-row completed flag as the spec words it,
date present AND (cutoff absent OR date at most the cutoff). -/
def specCompleted (d cutoff : Option Int) : Bool :=
  match d with
  | none => false
  | some x => match cutoff with | none => true | some c => decide (x ≤ c)

/-- Spec side (claim C1): the OR-reduction of the completed flags over every
row of every usable sheet of a unit for one student. -/
def specUnitFlag (wb : List Sheet) (targets : List (List Char))
    (cutoff : Option Int) (tgt : List Char) (sid : Int) : Bool :=
  (unitSheets wb targets tgt).any (fun s =>
    s.rows.any (fun r => decide (r.idnum = some sid) && specCompleted r.kdate cutoff))

/-- Spec side (claim C1): the mastery count as the sum of the per-unit flags
over the catalog. -/
def specMasCount (wb : List Sheet) (targets : List (List Char))
    (cutoff : Option Int) (sid : Int) : Nat :=
  (targets.map (fun t => natOfBool (specUnitFlag wb targets cutoff t sid))).sum

/-- A student appears in some usable sheet of some unit of the catalog. -/
def specHasStudent (wb : List Sheet) (targets : List (List Char)) (sid : Int) :
    Bool :=
  targets.any (fun t =>
    (unitSheets wb targets t).any (fun s =>
      s.rows.any (fun r => decide (r.idnum = some sid))))

/-- Spec side (claim C2): the earliest completion date of one student over
ALL rows of ALL matching sheets of a unit. -/
def specEarliest (wb : List Sheet) (targets : List (List Char)) (tgt : List Char)
    (sid : Int) : Option Int :=
  foldMin (((unitSheets wb targets tgt).flatMap (fun s =>
    s.rows.filter (fun r => decide (r.idnum = some sid)))).map (fun r => r.kdate))

/-- Spec side (claim C2): the late count as the sum over the catalog of the
flags comparing the earliest date against the cutoff. -/
def specLateCount (wb : List Sheet) (targets : List (List Char)) (c : Int)
    (sid : Int) : Nat :=
  (targets.map (fun t =>
    natOfBool (lateFlag (specEarliest wb targets t sid) c))).sum

/-- Claim side (claim C6): the pattern as the claim words it, with the
leading 4-digit year OPTIONAL, which reduces to a case-insensitive
end-anchored match of the whitespace-stripped target. -/
def claimSheetMatch (tgt s : List Char) : Bool :=
  let sn := normWS s
  let tn := normWS tgt
  decide (tn.length ≤ sn.length) && caseEqList (sn.drop (sn.length - tn.length)) tn

/-- Claim side (claim C7): the math score as the claim words it, present only
when both sub-column scores are present. -/
def claimMathScore (m1 m2 : Option Int) : Option Int :=
  match m1, m2 with
  | some a, some b => some (a + b)
  | _, _ => none

/-- Fixture: a unit sheet for the first English unit, student 1 completed
early, student 2 without a completion date. -/
def sampleUnitSheet : Sheet :=
  { name := "2024英単語1800".data
    hasEng := false, hasId := true, hasGrade := false
    hasMath1 := false, hasMath2 := false, hasJpn := false, hasKdate := true
    rows :=
      [⟨some 1, [], none, none, none, none, some (dt 2024 10 1)⟩,
       ⟨some 2, [], none, none, none, none, none⟩] }

/-- Fixture: an exam-results sheet with two students. -/
def sampleExamSheet : Sheet :=
  { name := "202410合同共テ結果".data
    hasEng := true, hasId := true, hasGrade := true
    hasMath1 := true, hasMath2 := true, hasJpn := true, hasKdate := false
    rows :=
      [⟨some 1, "3年".data, some 50, some 20, some 30, some 40, none⟩,
       ⟨some 2, "1".data, some 80, none, none, none, none⟩] }

/-- Fixture: a workbook with one exam sheet and one unit sheet. -/
def sampleWb : List Sheet := [sampleExamSheet, sampleUnitSheet]

/-- Fixture (claim C2): two sheets matching the same English unit; student 1
completed after the cutoff in one sheet and before it in the other. -/
def lateSheetA : Sheet :=
  { name := "2023英単語1800".data
    hasEng := false, hasId := true, hasGrade := false
    hasMath1 := false, hasMath2 := false, hasJpn := false, hasKdate := true
    rows := [⟨some 1, [], none, none, none, none, some 300⟩] }

/-- Fixture (claim C2): the second sheet of the same unit. -/
def lateSheetB : Sheet :=
  { name := "2024英単語1800".data
    hasEng := false, hasId := true, hasGrade := false
    hasMath1 := false, hasMath2 := false, hasJpn := false, hasKdate := true
    rows := [⟨some 1, [], none, none, none, none, some 50⟩] }

/-- Fixture (claim C2): the workbook with a duplicated unit. -/
def lateCexWb : List Sheet := [lateSheetA, lateSheetB]

/-- Fixture (claim C7): an exam sheet whose two math sub-columns exist but
whose only student left both math cells blank. -/
def mathCexSheet : Sheet :=
  { name := "202410合同共テ結果".data
    hasEng := true, hasId := true, hasGrade := true
    hasMath1 := true, hasMath2 := true, hasJpn := false, hasKdate := false
    rows := [⟨some 1, "1".data, some 10, none, none, none, none⟩] }

/-- Fixture (claim C7): the workbook around that sheet. -/
def mathCexWb : List Sheet := [mathCexSheet]

/-- Fixture (claim C8): a minimal input file. -/
def plainFile : FileInput := ⟨"a.xlsx".data, "a".data, []⟩

/-- Fixture: a run timestamp. -/
def sampleTs : List Char := "2026-10-12 00:00:00".data

/-- A keyed frame that stores exactly one value per key, in the image form
produced by a groupby. -/
def KeyFun (f : List (Int × Nat)) : Prop :=
  ∃ (keys : List Int) (g : Int → Nat), keys.Nodup ∧ f = keys.map (fun x => (x, g x))

theorem mem_map_keyfun {α : Type} (keys : List Int) (g : Int → α) (k : Int) (v : α) :
    (k, v) ∈ keys.map (fun x => (x, g x)) ↔ k ∈ keys ∧ v = g k := by
  constructor
  · intro h
    rcases List.mem_map.mp h with ⟨a, ha, heq⟩
    injection heq with h1 h2
    subst h1
    exact ⟨ha, h2.symm⟩
  · rintro ⟨hk, rfl⟩
    exact List.mem_map.mpr ⟨k, hk, rfl⟩

theorem valsFor_append {α : Type} (a b : List (Int × α)) (k : Int) :
    valsFor (a ++ b) k = valsFor a k ++ valsFor b k := by
  simp [valsFor, List.filter_append]

theorem valsFor_eq_nil_of_not_mem {α : Type} {f : List (Int × α)} {k : Int}
    (h : k ∉ keysOf f) : valsFor f k = [] := by
  induction f with
  | nil => rfl
  | cons p t ih =>
      have h1 : ¬ p.1 = k := by
        intro e
        exact h (by simp [keysOf, e])
      have h2 : k ∉ keysOf t := by
        intro m
        exact h (by simp [keysOf] at m ⊢; exact Or.inr m)
      simpa [valsFor, List.filter_cons, h1] using ih h2

theorem mem_valsFor {α : Type} {f : List (Int × α)} {k : Int} {v : α} :
    v ∈ valsFor f k ↔ (k, v) ∈ f := by
  simp only [valsFor, List.mem_map, List.mem_filter, decide_eq_true_eq]
  constructor
  · rintro ⟨⟨a, b⟩, ⟨hm, he⟩, hv⟩
    simp only at he hv
    subst he; subst hv
    exact hm
  · intro hm
    exact ⟨(k, v), ⟨hm, rfl⟩, rfl⟩

theorem mem_keysOf {α : Type} {f : List (Int × α)} {k : Int} :
    k ∈ keysOf f ↔ ∃ v, (k, v) ∈ f := by
  simp only [keysOf, List.mem_map]
  constructor
  · rintro ⟨⟨a, b⟩, hm, rfl⟩
    exact ⟨b, hm⟩
  · rintro ⟨v, hv⟩
    exact ⟨(k, v), hv, rfl⟩

theorem keysOf_map_keyfun {α : Type} (keys : List Int) (g : Int → α) :
    keysOf (keys.map (fun x => (x, g x))) = keys := by
  simp [keysOf, List.map_map, Function.comp_def]

theorem keysOf_groupMax (rows : List (Int × Nat)) :
    keysOf (groupMax rows) = (keysOf rows).dedup :=
  keysOf_map_keyfun _ _

theorem keysOf_groupMin (rows : List (Int × Option Int)) :
    keysOf (groupMin rows) = (keysOf rows).dedup :=
  keysOf_map_keyfun _ _

theorem valsFor_map_keyfun {α : Type} {keys : List Int} (hnd : keys.Nodup)
    (g : Int → α) (k : Int) :
    valsFor (keys.map (fun x => (x, g x))) k = if k ∈ keys then [g k] else [] := by
  induction keys with
  | nil => simp [valsFor]
  | cons a t ih =>
      rcases List.nodup_cons.mp hnd with ⟨ha, ht⟩
      by_cases hk : a = k
      · subst hk
        have hnm : valsFor (t.map (fun x => (x, g x))) a = [] :=
          valsFor_eq_nil_of_not_mem (by rw [keysOf_map_keyfun]; exact ha)
        simp only [List.map_cons, valsFor, List.filter_cons] at hnm ⊢
        simp [hnm]
      · have : valsFor ((a, g a) :: t.map (fun x => (x, g x))) k
            = valsFor (t.map (fun x => (x, g x))) k := by
          simp [valsFor, List.filter_cons, hk]
        rw [List.map_cons, this, ih ht]
        have hka : ¬ k = a := fun h => hk h.symm
        simp [hka]

theorem foldMax_append (a b : List Nat) :
    foldMax (a ++ b) = max (foldMax a) (foldMax b) := by
  induction a with
  | nil => simp [foldMax]
  | cons x t ih => simp only [List.cons_append, foldMax, List.foldr_cons] at ih ⊢; omega

theorem foldMax_valsFor_groupMax (rows : List (Int × Nat)) (k : Int) :
    foldMax (valsFor (groupMax rows) k) = foldMax (valsFor rows k) := by
  unfold groupMax
  rw [valsFor_map_keyfun (List.nodup_dedup _) _ k]
  by_cases hk : k ∈ (keysOf rows).dedup
  · simp only [hk, if_pos]
    simp [foldMax]
  · simp only [hk, if_neg, if_false]
    have : k ∉ keysOf rows := fun m => hk (List.mem_dedup.mpr m)
    rw [valsFor_eq_nil_of_not_mem this]

theorem foldMax_valsFor_flatMap {β : Type} (l : List β) (f : β → List (Int × Nat))
    (k : Int) :
    foldMax (valsFor (l.flatMap f) k)
      = foldMax (l.map (fun s => foldMax (valsFor (f s) k))) := by
  induction l with
  | nil => rfl
  | cons s t ih =>
      simp only [List.flatMap_cons, List.map_cons, valsFor_append, foldMax_append, ih]
      simp [foldMax]

theorem valsFor_cons {α : Type} (a : Int) (v : α) (f : List (Int × α)) (k : Int) :
    valsFor ((a, v) :: f) k = if a = k then v :: valsFor f k else valsFor f k := by
  by_cases h : a = k <;> simp [valsFor, List.filter_cons, h]

theorem valsFor_filterMap_id {α : Type} (rows : List CellRow) (g : CellRow → α)
    (k : Int) :
    valsFor (rows.filterMap (fun r => r.idnum.map (fun i => (i, g r)))) k
      = (rows.filter (fun r => decide (r.idnum = some k))).map g := by
  induction rows with
  | nil => rfl
  | cons r t ih =>
      cases h : r.idnum with
      | none => simp [List.filterMap_cons, h, List.filter_cons, ih]
      | some i =>
          simp only [List.filterMap_cons, h, Option.map_some', List.filter_cons]
          by_cases hik : i = k
          · subst hik
            simp [valsFor_cons, ih, h]
          · have : ¬ r.idnum = some k := by rw [h]; simp [hik]
            simp [valsFor_cons, hik, ih, h, this]

theorem keysOf_filterMap_id {α : Type} (rows : List CellRow) (g : CellRow → α) :
    keysOf (rows.filterMap (fun r => r.idnum.map (fun i => (i, g r))))
      = rows.filterMap (fun r => r.idnum) := by
  simp only [keysOf]
  induction rows with
  | nil => rfl
  | cons r t ih => cases h : r.idnum <;> simp [List.filterMap_cons, h, ih]

theorem keysOf_flatMap {β α : Type} (l : List β) (f : β → List (Int × α)) :
    keysOf (l.flatMap f) = l.flatMap (fun s => keysOf (f s)) := by
  simp only [keysOf]
  induction l with
  | nil => rfl
  | cons a t ih => simp [List.flatMap_cons, ih]

theorem foldMax_map_natOfBool {β : Type} (l : List β) (p : β → Bool) :
    foldMax (l.map (fun x => natOfBool (p x))) = natOfBool (l.any p) := by
  induction l with
  | nil => rfl
  | cons x t ih =>
      simp only [List.map_cons, List.any_cons, foldMax, List.foldr_cons]
      rw [show (List.map (fun y => natOfBool (p y)) t).foldr max 0
            = foldMax (List.map (fun y => natOfBool (p y)) t) from rfl, ih]
      cases hx : p x <;> cases ht : t.any p <;> simp [natOfBool]

theorem any_filter_eq {β : Type} (l : List β) (p q : β → Bool) :
    (l.filter p).any q = l.any (fun a => p a && q a) := by
  induction l with
  | nil => rfl
  | cons a t ih =>
      cases h : p a <;> simp [List.filter_cons, h, List.any_cons, ih]

theorem rowCompleted_eq_spec (d c : Option Int) :
    rowCompleted d c = specCompleted d c := by
  cases d <;> cases c <;> simp [rowCompleted, specCompleted]

theorem pickVals_keyfun {keys : List Int} (hnd : keys.Nodup) (g : Int → Nat)
    (k : Int) :
    pickVals (keys.map (fun x => (x, g x))) k
      = [foldMax (valsFor (keys.map (fun x => (x, g x))) k)] := by
  unfold pickVals
  rw [valsFor_map_keyfun hnd]
  by_cases hk : k ∈ keys <;> simp [hk, foldMax]

theorem pickVals_of_keyFun {f : List (Int × Nat)} (h : KeyFun f) (k : Int) :
    pickVals f k = [foldMax (valsFor f k)] := by
  rcases h with ⟨keys, g, hnd, rfl⟩
  exact pickVals_keyfun hnd g k

theorem keyFun_groupMax (rows : List (Int × Nat)) : KeyFun (groupMax rows) :=
  ⟨(keysOf rows).dedup, _, List.nodup_dedup _, rfl⟩

theorem allPicks_map_singleton {β : Type} (l : List β) (h : β → Nat) :
    allPicks (l.map (fun b => [h b])) = [l.map h] := by
  induction l with
  | nil => rfl
  | cons a t ih => simp [allPicks, ih]

theorem flatMap_congr {α β : Type} {l : List α} {f g : α → List β}
    (h : ∀ a ∈ l, f a = g a) : l.flatMap f = l.flatMap g := by
  induction l with
  | nil => rfl
  | cons a t ih =>
      simp only [List.flatMap_cons]
      rw [h a (List.mem_cons_self a t), ih (fun x hx => h x (List.mem_cons_of_mem a hx))]

theorem flatMap_singleton_map {α β : Type} (l : List α) (g : α → β) :
    l.flatMap (fun a => [g a]) = l.map g := by
  induction l with
  | nil => rfl
  | cons a t ih => simp [List.flatMap_cons, ih]

theorem mergeChain_keyFun (frames : List (List (Int × Nat)))
    (h : ∀ f ∈ frames, KeyFun f) :
    mergeChain frames
      = ((frames.flatMap keysOf).dedup).map
          (fun k => (k, frames.map (fun f => foldMax (valsFor f k)))) := by
  unfold mergeChain
  rw [← flatMap_singleton_map ((frames.flatMap keysOf).dedup)
    (fun k => (k, frames.map (fun f => foldMax (valsFor f k))))]
  apply flatMap_congr
  intro k _
  have hp : frames.map (fun f => pickVals f k)
      = frames.map (fun f => [foldMax (valsFor f k)]) :=
    List.map_congr_left (fun f hf => pickVals_of_keyFun (h f hf) k)
  rw [hp, allPicks_map_singleton frames (fun f => foldMax (valsFor f k))]
  rfl

theorem tgtMastery_value (wb : List Sheet) (targets : List (List Char))
    (cutoff : Option Int) (tgt : List Char) (k : Int) :
    foldMax (valsFor (tgtMasteryFrame wb targets cutoff tgt) k)
      = natOfBool (specUnitFlag wb targets cutoff tgt k) := by
  unfold tgtMasteryFrame specUnitFlag
  rw [foldMax_valsFor_groupMax, foldMax_valsFor_flatMap, ← foldMax_map_natOfBool]
  apply congrArg
  apply List.map_congr_left
  intro s _
  unfold sheetMasteryFrame idFlagRows
  rw [foldMax_valsFor_groupMax, valsFor_filterMap_id, foldMax_map_natOfBool,
    any_filter_eq]
  have he : ∀ r : CellRow,
      rowCompleted r.kdate cutoff = specCompleted r.kdate cutoff :=
    fun r => rowCompleted_eq_spec _ _
  simp [he]

theorem mem_keys_tgtMasteryFrame (wb : List Sheet) (targets : List (List Char))
    (cutoff : Option Int) (tgt : List Char) (k : Int) :
    k ∈ keysOf (tgtMasteryFrame wb targets cutoff tgt)
      ↔ ((unitSheets wb targets tgt).any (fun s =>
          s.rows.any (fun r => decide (r.idnum = some k)))) = true := by
  unfold tgtMasteryFrame sheetMasteryFrame idFlagRows
  rw [keysOf_groupMax, List.mem_dedup, keysOf_flatMap]
  simp only [keysOf_groupMax, keysOf_filterMap_id, List.mem_flatMap,
    List.mem_dedup, List.mem_filterMap, List.any_eq_true, decide_eq_true_eq]

theorem count_mastery_rows (wb : List Sheet) (targets : List (List Char))
    (cutoff : Option Int) :
    count_mastery wb targets cutoff
      = (((targets.map (tgtMasteryFrame wb targets cutoff)).flatMap keysOf).dedup).map
          (fun k => (k, specMasCount wb targets cutoff k)) := by
  unfold count_mastery
  by_cases ht : targets.isEmpty
  · have he : targets = [] := List.isEmpty_iff.mp ht
    subst he
    rfl
  · rw [if_neg ht, mergeChain_keyFun _ (fun f hf => by
      rcases List.mem_map.mp hf with ⟨t, _, rfl⟩
      exact keyFun_groupMax _), List.map_map]
    apply List.map_congr_left
    intro k _
    simp only [Function.comp_apply]
    congr 1
    unfold specMasCount
    rw [List.map_map]
    apply congrArg List.sum
    apply List.map_congr_left
    intro t _
    simp only [Function.comp_apply]
    exact tgtMastery_value wb targets cutoff t k

theorem sum_map_natOfBool_le {β : Type} (l : List β) (p : β → Bool) :
    (l.map (fun t => natOfBool (p t))).sum ≤ l.length := by
  induction l with
  | nil => simp
  | cons a t ih =>
      simp only [List.map_cons, List.sum_cons, List.length_cons]
      have hb : natOfBool (p a) ≤ 1 := by cases p a <;> simp [natOfBool]
      omega

theorem count_mastery_le (wb : List Sheet) (targets : List (List Char))
    (cutoff : Option Int) (sid : Int) (n : Nat)
    (h : (sid, n) ∈ count_mastery wb targets cutoff) : n ≤ targets.length := by
  rw [count_mastery_rows, mem_map_keyfun] at h
  rcases h with ⟨_, rfl⟩
  unfold specMasCount
  exact sum_map_natOfBool_le _ _

theorem keyFun_nil : KeyFun [] := ⟨[], fun _ => 0, List.nodup_nil, rfl⟩

theorem lateComp (s : Sheet) (c : Int) :
    ((fun p : Int × Option Int => (p.1, natOfBool (lateFlag p.2 c))) ∘
      (fun k => (k, foldMin (valsFor (idDateRows s) k))))
      = fun k => (k, natOfBool (lateFlag (foldMin (valsFor (idDateRows s) k)) c)) :=
  rfl

theorem keyFun_tgtLateFrame (wb : List Sheet) (targets : List (List Char))
    (c : Int) (tgt : List Char)
    (h1 : (unitSheets wb targets tgt).length ≤ 1) :
    KeyFun (tgtLateFrame wb targets c tgt) := by
  unfold tgtLateFrame
  cases hu : unitSheets wb targets tgt with
  | nil => exact keyFun_nil
  | cons s tl =>
      cases tl with
      | cons s2 t2 => rw [hu] at h1; simp at h1
      | nil =>
          simp only [List.flatMap_cons, List.flatMap_nil, List.append_nil]
          unfold sheetLateFrame groupMin
          rw [List.map_map, lateComp]
          exact ⟨(keysOf (idDateRows s)).dedup, _, List.nodup_dedup _, rfl⟩

theorem no_id_filter_nil (s : Sheet) (k : Int)
    (h : k ∉ keysOf (idDateRows s)) :
    s.rows.filter (fun r => decide (r.idnum = some k)) = [] := by
  rw [List.filter_eq_nil_iff]
  intro r hr hc
  apply h
  rw [show idDateRows s
      = s.rows.filterMap (fun r => r.idnum.map (fun i => (i, r.kdate))) from rfl,
    keysOf_filterMap_id]
  rw [List.mem_filterMap]
  exact ⟨r, hr, by simpa using hc⟩

theorem tgtLate_value (wb : List Sheet) (targets : List (List Char)) (c : Int)
    (tgt : List Char) (k : Int)
    (h1 : (unitSheets wb targets tgt).length ≤ 1) :
    foldMax (valsFor (tgtLateFrame wb targets c tgt) k)
      = natOfBool (lateFlag (specEarliest wb targets tgt k) c) := by
  unfold tgtLateFrame specEarliest
  cases hu : unitSheets wb targets tgt with
  | nil =>
      simp [valsFor, foldMax, foldMin, lateFlag, natOfBool]
  | cons s tl =>
      cases tl with
      | cons s2 t2 => rw [hu] at h1; simp at h1
      | nil =>
          simp only [List.flatMap_cons, List.flatMap_nil, List.append_nil]
          unfold sheetLateFrame groupMin
          rw [List.map_map, lateComp]
          rw [valsFor_map_keyfun (List.nodup_dedup _)]
          have hv : valsFor (idDateRows s) k
              = (s.rows.filter (fun r => decide (r.idnum = some k))).map
                  (fun r => r.kdate) :=
            valsFor_filterMap_id s.rows (fun r => r.kdate) k
          by_cases hk : k ∈ (keysOf (idDateRows s)).dedup
          · rw [if_pos hk, hv]
            simp [foldMax]
          · rw [if_neg hk]
            have hnm : k ∉ keysOf (idDateRows s) :=
              fun m => hk (List.mem_dedup.mpr m)
            rw [no_id_filter_nil s k hnm]
            simp [foldMax, foldMin, lateFlag, natOfBool]

theorem keysOf_tgtLateFrame (wb : List Sheet) (targets : List (List Char))
    (c : Int) (tgt : List Char) :
    keysOf (tgtLateFrame wb targets c tgt)
      = keysOf ((unitSheets wb targets tgt).flatMap sheetLateFrame) := by
  unfold tgtLateFrame
  simp [keysOf, List.map_map, Function.comp_def]

theorem mem_keys_tgtLateFrame (wb : List Sheet) (targets : List (List Char))
    (c : Int) (tgt : List Char) (k : Int) :
    k ∈ keysOf (tgtLateFrame wb targets c tgt)
      ↔ ((unitSheets wb targets tgt).any (fun s =>
          s.rows.any (fun r => decide (r.idnum = some k)))) = true := by
  rw [keysOf_tgtLateFrame, keysOf_flatMap]
  unfold sheetLateFrame idDateRows
  simp only [keysOf_groupMin, keysOf_filterMap_id, List.mem_flatMap,
    List.mem_dedup, List.mem_filterMap, List.any_eq_true, decide_eq_true_eq]

theorem count_late_rows (wb : List Sheet) (targets : List (List Char)) (c : Int)
    (h : ∀ t ∈ targets, (unitSheets wb targets t).length ≤ 1) :
    count_late_mastery wb targets (some c)
      = (((targets.map (tgtLateFrame wb targets c)).flatMap keysOf).dedup).map
          (fun k => (k, specLateCount wb targets c k)) := by
  unfold count_late_mastery
  by_cases ht : targets.isEmpty
  · have he : targets = [] := List.isEmpty_iff.mp ht
    subst he
    rfl
  · simp only [if_neg ht]
    rw [mergeChain_keyFun _ (fun f hf => by
      rcases List.mem_map.mp hf with ⟨t, htt, rfl⟩
      exact keyFun_tgtLateFrame wb targets c t (h t htt)), List.map_map]
    apply List.map_congr_left
    intro k _
    simp only [Function.comp_apply]
    congr 1
    unfold specLateCount
    rw [List.map_map]
    apply congrArg List.sum
    apply List.map_congr_left
    intro t htt
    simp only [Function.comp_apply]
    exact tgtLate_value wb targets c t k (h t htt)

theorem mem_pickVals {f : List (Int × Nat)} {k : Int} {v : Nat}
    (h : v ∈ pickVals f k) : v = 0 ∨ (k, v) ∈ f := by
  by_cases he : (valsFor f k).isEmpty = true
  · left
    simp [pickVals, he] at h
    exact h
  · right
    simp [pickVals, he] at h
    exact mem_valsFor.mp h

theorem pickVals_ne_nil (f : List (Int × Nat)) (k : Int) : pickVals f k ≠ [] := by
  by_cases he : (valsFor f k).isEmpty = true
  · simp [pickVals, he]
  · simp only [pickVals]
    intro hnil
    rw [if_neg he] at hnil
    rw [hnil] at he
    simp at he

theorem denseGrid_length (maxVal : Nat) :
    (denseGrid maxVal).length = 2 * (maxVal + 1) := by
  unfold denseGrid
  simp only [List.flatMap_cons, List.flatMap_nil, List.append_nil,
    List.length_append, List.length_map, List.length_range]
  omega

theorem caseEqList_length {a b : List Char} (h : caseEqList a b = true) :
    a.length = b.length := by
  induction a generalizing b with
  | nil =>
      cases b with
      | nil => rfl
      | cons y ys => simp [caseEqList] at h
  | cons x xs ih =>
      cases b with
      | nil => simp [caseEqList] at h
      | cons y ys =>
          simp only [caseEqList, Bool.and_eq_true] at h
          simp [ih h.2]

theorem sheetMatches_iff (t s : List Char) :
    sheetMatches t s = true
      ↔ ∃ ds mid tl, normWS s = ds ++ mid ++ tl ∧ ds.length = 4
          ∧ ds.all isPyDigit = true ∧ caseEqList tl (normWS t) = true := by
  simp only [sheetMatches, Bool.and_eq_true, decide_eq_true_eq]
  constructor
  · rintro ⟨⟨hlen, hdig⟩, hsuf⟩
    refine ⟨(normWS s).take 4,
      ((normWS s).drop 4).take ((normWS s).length - (normWS t).length - 4),
      (normWS s).drop ((normWS s).length - (normWS t).length), ?_, ?_, hdig, hsuf⟩
    · conv_lhs => rw [← List.take_append_drop 4 (normWS s)]
      rw [List.append_assoc]
      congr 1
      conv_lhs => rw [← List.take_append_drop
        ((normWS s).length - (normWS t).length - 4) ((normWS s).drop 4)]
      congr 1
      rw [List.drop_drop]
      congr 1
      omega
    · rw [List.length_take]
      omega
  · rintro ⟨ds, mid, tl, hs, hl4, hdig, hcase⟩
    have hlt : tl.length = (normWS t).length := caseEqList_length hcase
    have hslen : (normWS s).length = ds.length + mid.length + tl.length := by
      rw [hs]; simp [List.length_append]; omega
    refine ⟨⟨by omega, ?_⟩, ?_⟩
    · rw [hs, List.append_assoc, show (4 : Nat) = ds.length from hl4.symm,
        List.take_left]
      exact hdig
    · have hd : (normWS s).drop ((normWS s).length - (normWS t).length) = tl := by
        rw [hs, show (ds ++ mid ++ tl).length - (normWS t).length
            = (ds ++ mid).length from by simp [List.length_append]; omega,
          List.drop_left]
      rw [hd]
      exact hcase

theorem mem_sheets_for_single (names : List (List Char)) (t s : List Char) :
    (t, s) ∈ _sheets_for_targets names [t]
      ↔ s ∈ names ∧ sheetMatches t s = true := by
  unfold _sheets_for_targets
  rw [List.mem_filterMap]
  constructor
  · rintro ⟨s', hs', he⟩
    cases hm : sheetMatches t s' with
    | false =>
        rw [show List.find? (fun x => sheetMatches x s') [t] = none from by
          simp [List.find?, hm]] at he
        simp at he
    | true =>
        rw [show List.find? (fun x => sheetMatches x s') [t] = some t from by
          simp [List.find?, hm]] at he
        simp at he
        subst he
        exact ⟨hs', hm⟩
  · rintro ⟨hsn, hm⟩
    refine ⟨s, hsn, ?_⟩
    rw [show List.find? (fun x => sheetMatches x s) [t] = some t from by
      simp [List.find?, hm]]
    rfl

theorem examSubRows_fields (s : Sheet) (b : BaseRow) (h : b ∈ examSubRows s) :
    ∃ r ∈ s.rows, r.idnum = some b.sid
      ∧ b.math = (if s.hasMath1 && s.hasMath2 then some (r.m1.getD 0 + r.m2.getD 0)
          else none)
      ∧ b.eng = r.eng
      ∧ b.jpn = (if s.hasJpn then r.jpn else none) := by
  unfold examSubRows at h
  by_cases hg : (s.hasEng && s.hasId && s.hasGrade) = true
  · rw [if_pos hg, List.mem_filterMap] at h
    rcases h with ⟨r, hr, he⟩
    cases hid : r.idnum with
    | none => rw [hid] at he; simp at he
    | some i =>
        rw [hid] at he
        simp only [Option.map_some', Option.some.injEq] at he
        refine ⟨r, hr, ?_, ?_, ?_, ?_⟩ <;> simp [← he, hid]
  · rw [if_neg hg] at h
    simp at h

theorem summarize_long_ignores_missing (rows : List SRow) (r0 : SRow) (mv : Nat)
    (h : r0.score = none) :
    summarize_long (r0 :: rows) mv = summarize_long rows mv := by
  unfold summarize_long
  apply List.map_congr_left
  intro gb _
  have hc : cellRows (r0 :: rows) gb.1 gb.2 = cellRows rows gb.1 gb.2 := by
    unfold cellRows
    rw [List.filter_cons]
    simp [h]
  rw [hc]

theorem summarize_long_cells (rows : List SRow) (maxVal : Nat) :
    (summarize_long rows maxVal).map (fun r => (r.cohort, r.bucket))
      = denseGrid maxVal := by
  unfold summarize_long
  rw [List.map_map]
  conv_rhs => rw [← List.map_id (denseGrid maxVal)]
  apply List.map_congr_left
  intro gb _
  rfl

theorem summarize_distribution_cells (rows : List SRow) (maxVal : Nat) :
    (summarize_distribution rows maxVal).map (fun r => (r.cohort, r.bucket))
      = denseGrid maxVal := by
  unfold summarize_distribution
  rw [List.map_map]
  conv_rhs => rw [← List.map_id (denseGrid maxVal)]
  apply List.map_congr_left
  intro gb _
  rfl

/-- Claim C1: for every input workbook, unit catalog and resolved cutoff,
count_mastery returns one row per student appearing in some unit's usable
sheets, and that row's value is the sum over the catalog of the per-unit
logical OR (across duplicate rows and sheets) of the per-row completed flag,
the flag being: completion date present AND (cutoff absent OR date at most
the cutoff); a unit with no matching sheet contributes 0 for every student
and never raises (the embedding is total). -/
theorem count_mastery_spec_correct (wb : List Sheet) (targets : List (List Char))
    (cutoff : Option Int) (sid : Int) (n : Nat) :
    (sid, n) ∈ count_mastery wb targets cutoff
      ↔ (specHasStudent wb targets sid = true
          ∧ n = specMasCount wb targets cutoff sid) := by
  rw [count_mastery_rows, mem_map_keyfun]
  constructor
  · rintro ⟨hm, rfl⟩
    refine ⟨?_, rfl⟩
    rw [List.mem_dedup, List.mem_flatMap] at hm
    rcases hm with ⟨f, hf, hk⟩
    rcases List.mem_map.mp hf with ⟨t, htt, rfl⟩
    unfold specHasStudent
    rw [List.any_eq_true]
    exact ⟨t, htt, (mem_keys_tgtMasteryFrame wb targets cutoff t sid).mp hk⟩
  · rintro ⟨hs, rfl⟩
    refine ⟨?_, rfl⟩
    unfold specHasStudent at hs
    rw [List.any_eq_true] at hs
    rcases hs with ⟨t, htt, hany⟩
    rw [List.mem_dedup, List.mem_flatMap]
    exact ⟨tgtMasteryFrame wb targets cutoff t, List.mem_map.mpr ⟨t, htt, rfl⟩,
      (mem_keys_tgtMasteryFrame wb targets cutoff t sid).mpr hany⟩

/-- Claim C9: grade normalization is a total function into the two cohorts,
it classes an input as the grade-3 cohort exactly when the grade-3 regex
matches the translated and stripped input, the full-width input 3-nen maps to
the grade-3 cohort, and the inputs 1 and blank map to the complementary
cohort. -/
theorem normalize_grade_correct :
    (∀ x : List Char, normalize_grade_val x = "高3".data
        ∨ normalize_grade_val x = "高1+2".data)
    ∧ (∀ x : List Char, normalize_grade_val x = "高3".data
        ↔ grade3Search (pyStrip (x.map jpDigitTr)) = true)
    ∧ normalize_grade_val "３年".data = "高3".data
    ∧ normalize_grade_val "1".data = "高1+2".data
    ∧ normalize_grade_val [] = "高1+2".data := by
  refine ⟨?_, ?_, by decide, by decide, by decide⟩
  · intro x
    unfold normalize_grade_val
    by_cases h : grade3Search (pyStrip (x.map jpDigitTr)) = true
    · left
      rw [if_pos h]
    · right
      rw [if_neg h]
  · intro x
    unfold normalize_grade_val
    by_cases h : grade3Search (pyStrip (x.map jpDigitTr)) = true <;> simp [h]

/-- Claim C3: cutoff resolution on a stem: a 6-digit run that is an override
key returns the override regardless of the calendar; else the first 4 digits
of the 6-digit run, or failing that a bare 4-digit run, give a year Y and the
fixed calendar entry for Y plus one is returned (absence in the calendar, or
no year run at all, resolves to no cutoff); a stem without a 6-digit run is
never matched against the override map; and the three concrete examples of
the spec. -/
theorem cutoff_resolution_correct :
    (∀ (stem : List Char) (ov : List ((List Char) × Int)) (k6 : List Char) (d : Int),
        firstDigitRun 6 stem = some k6 → ovLookup ov k6 = some d →
        cutoff_for_stem stem ov = some d)
    ∧ (∀ (stem : List Char) (ov : List ((List Char) × Int)) (k6 : List Char),
        firstDigitRun 6 stem = some k6 → ovLookup ov k6 = none →
        cutoff_for_stem stem ov = calLookup (digitsToNat (k6.take 4) + 1))
    ∧ (∀ (stem : List Char) (ov : List ((List Char) × Int)) (y : Nat),
        firstDigitRun 6 stem = none → detect_year_from_stem stem = some y →
        cutoff_for_stem stem ov = calLookup (y + 1))
    ∧ (∀ (stem : List Char) (ov : List ((List Char) × Int)),
        firstDigitRun 6 stem = none → detect_year_from_stem stem = none →
        cutoff_for_stem stem ov = none)
    ∧ (∀ (stem : List Char) (ov ov2 : List ((List Char) × Int)),
        firstDigitRun 6 stem = none →
        cutoff_for_stem stem ov = cutoff_for_stem stem ov2)
    ∧ cutoff_for_stem "202410結果".data [] = calLookup 2025
    ∧ calLookup 2025 = some (dt 2025 1 18)
    ∧ cutoff_for_stem "2024結果".data [] = calLookup 2025
    ∧ cutoff_for_stem "202410結果".data [("202410".data, dt 2025 3 1)]
        = some (dt 2025 3 1) := by
  refine ⟨?_, ?_, ?_, ?_, ?_, by decide, by decide, by decide, by decide⟩
  · intro stem ov k6 d h6 ho
    simp only [cutoff_for_stem, h6, ho]
  · intro stem ov k6 h6 ho
    simp only [cutoff_for_stem, h6, ho]
  · intro stem ov y h6 hy
    simp only [cutoff_for_stem, h6, hy]
    by_cases h0 : y = 0
    · subst h0
      rw [if_pos rfl]
      decide
    · rw [if_neg h0]
  · intro stem ov h6 hy
    simp only [cutoff_for_stem, h6, hy]
  · intro stem ov ov2 h6
    simp only [cutoff_for_stem, h6]

/-- Witness for claim C3: the override branch applied to the concrete stem
and override mapping of the spec. -/
theorem cutoff_resolution_witness :
    firstDigitRun 6 "202410結果".data = some "202410".data
    ∧ ovLookup [("202410".data, dt 2025 3 1)] "202410".data = some (dt 2025 3 1)
    ∧ cutoff_for_stem "202410結果".data [("202410".data, dt 2025 3 1)]
        = some (dt 2025 3 1) :=
  ⟨by decide, by decide,
    cutoff_resolution_correct.1 "202410結果".data [("202410".data, dt 2025 3 1)]
      "202410".data (dt 2025 3 1) (by decide) (by decide)⟩

/-- Counterexample for claim C6: the claim declares the leading 4-digit year
optional, so a sheet named exactly like the unit would match; under the
claim-side pattern it does match, but _sheets_for_targets rejects it because
the compiled pattern makes the 4-digit year mandatory. -/
theorem sheet_match_no_year_cex :
    claimSheetMatch "英単語1800".data "英単語1800".data = true
    ∧ _sheets_for_targets ["英単語1800".data] ["英単語1800".data] = [] := by
  constructor
  · decide
  · decide

/-- Claim C6 amended: the Sheet Matcher returns exactly the sheet names whose
whitespace-stripped form decomposes as a MANDATORY leading 4-digit year, then
arbitrary text, then the whitespace-stripped target name case-insensitively,
anchored at the end of the string; a sheet name without the 4-digit year
prefix does not match. -/
theorem sheets_for_targets_spec (names : List (List Char)) (t s : List Char) :
    (t, s) ∈ _sheets_for_targets names [t]
      ↔ (s ∈ names ∧ ∃ ds mid tl, normWS s = ds ++ mid ++ tl ∧ ds.length = 4
          ∧ ds.all isPyDigit = true ∧ caseEqList tl (normWS t) = true) := by
  rw [mem_sheets_for_single]
  constructor
  · rintro ⟨h1, h2⟩
    exact ⟨h1, (sheetMatches_iff t s).mp h2⟩
  · rintro ⟨h1, h2⟩
    exact ⟨h1, (sheetMatches_iff t s).mpr h2⟩

/-- Counterexample for claim C7: a student whose two math sub-column cells
are both blank gets the math score 0 from read_exam, because both cells are
coerced with fillna(0) before the sum, while the claim-side rule yields a
missing value. -/
theorem math_blank_zero_cex :
    (read_exam mathCexWb).map (fun b => b.math) = [some 0]
    ∧ claimMathScore none none = none := by
  constructor
  · decide
  · rfl

/-- Claim C7 amended: when both math sub-columns are present, each extracted
row's math score is the sum of the two sub-column scores with an unparseable
or blank sub-cell coerced to 0 (so two blank cells give 0, not a missing
value); when either sub-column is absent the math score is missing entirely;
and a missing score value contributes to no aggregate: it is the identity of
the groupby max and a row with a missing score leaves every long-table cell
unchanged. -/
theorem read_exam_math_amended (s : Sheet) (b : BaseRow) (rows : List SRow)
    (r0 : SRow) (mv : Nat) :
    (b ∈ examSubRows s →
      ∃ r ∈ s.rows, r.idnum = some b.sid
        ∧ b.math = (if s.hasMath1 && s.hasMath2
            then some (r.m1.getD 0 + r.m2.getD 0) else none)
        ∧ b.eng = r.eng
        ∧ b.jpn = (if s.hasJpn then r.jpn else none))
    ∧ (∀ q : Option Int, maxOptQ none q = q ∧ maxOptQ q none = q)
    ∧ (r0.score = none → summarize_long (r0 :: rows) mv = summarize_long rows mv) := by
  refine ⟨examSubRows_fields s b, ?_, summarize_long_ignores_missing rows r0 mv⟩
  intro q
  cases q <;> simp [maxOptQ]

/-- Witness for claim C7 amended: the row of the counterexample workbook and
a concrete missing-score row. -/
theorem read_exam_math_amended_witness :
    ((⟨1, "高1+2".data, some 10, some 0, none⟩ : BaseRow) ∈ examSubRows mathCexSheet)
    ∧ ((⟨1, "高1+2".data, 0, none⟩ : SRow).score = none)
    ∧ (∃ r ∈ mathCexSheet.rows,
        r.idnum = some (1 : Int)
        ∧ (some 0 : Option Int) = (if mathCexSheet.hasMath1 && mathCexSheet.hasMath2
            then some (r.m1.getD 0 + r.m2.getD 0) else none)
        ∧ (some 10 : Option Int) = r.eng
        ∧ (none : Option Int) = (if mathCexSheet.hasJpn then r.jpn else none))
    ∧ summarize_long [⟨1, "高1+2".data, 0, none⟩] 0 = summarize_long [] 0 := by
  refine ⟨by decide, rfl, ?_, ?_⟩
  · exact (read_exam_math_amended mathCexSheet ⟨1, "高1+2".data, some 10, some 0, none⟩
      [] ⟨1, "高1+2".data, 0, none⟩ 0).1 (by decide)
  · exact (read_exam_math_amended mathCexSheet ⟨1, "高1+2".data, some 10, some 0, none⟩
      [] ⟨1, "高1+2".data, 0, none⟩ 0).2.2 rfl

/-- Claim C4: every long table and every distribution table is the dense
cohort-cross-bucket grid with exactly 2 times (max_val plus 1) rows, and a
cell occupied by no panel row keeps headcount 0 and a missing (not zero)
mean. -/
theorem summarize_dense_grid (rows : List SRow) (maxVal : Nat) (g : List Char)
    (b : Nat) (hc : Nat) (mean : Option ℚ) (hcd : Nat) :
    ((summarize_long rows maxVal).length = 2 * (maxVal + 1)
      ∧ (summarize_long rows maxVal).map (fun r => (r.cohort, r.bucket))
          = denseGrid maxVal
      ∧ (summarize_distribution rows maxVal).length = 2 * (maxVal + 1)
      ∧ (summarize_distribution rows maxVal).map (fun r => (r.cohort, r.bucket))
          = denseGrid maxVal)
    ∧ ((⟨g, b, hc, mean⟩ : LongRow) ∈ summarize_long rows maxVal →
        (rows.all (fun r => !(decide (r.grade = g) && decide (r.keyval = b)))) = true →
        hc = 0 ∧ mean = none)
    ∧ ((⟨g, b, hcd⟩ : DistRow) ∈ summarize_distribution rows maxVal →
        (rows.all (fun r => !(decide (r.grade = g) && decide (r.keyval = b)))) = true →
        hcd = 0) := by
  have hempty_cell : ∀ hyp : (rows.all (fun r =>
      !(decide (r.grade = g) && decide (r.keyval = b)))) = true,
      (∀ r ∈ rows, ¬ (r.grade = g ∧ r.keyval = b)) := by
    intro hyp r hr
    have h2 := List.all_eq_true.mp hyp r hr
    rintro ⟨hg, hk⟩
    rw [hg, hk] at h2
    simp at h2
  refine ⟨⟨?_, summarize_long_cells rows maxVal, ?_,
    summarize_distribution_cells rows maxVal⟩, ?_, ?_⟩
  · unfold summarize_long
    rw [List.length_map, denseGrid_length]
  · unfold summarize_distribution
    rw [List.length_map, denseGrid_length]
  · intro hmem hyp
    have hno := hempty_cell hyp
    unfold summarize_long at hmem
    rcases List.mem_map.mp hmem with ⟨gb, _, heq⟩
    simp only [LongRow.mk.injEq] at heq
    obtain ⟨h1, h2, h3, h4⟩ := heq
    have hcell : cellRows rows gb.1 gb.2 = [] := by
      rw [h1, h2]
      apply List.filter_eq_nil_iff.mpr
      intro r hr
      simp only [Bool.and_eq_true, decide_eq_true_eq]
      rintro ⟨⟨_, hgg⟩, hkk⟩
      exact hno r hr ⟨hgg, hkk⟩
    rw [hcell] at h3 h4
    constructor
    · rw [← h3]
      rfl
    · rw [← h4]
      rfl
  · intro hmem hyp
    have hno := hempty_cell hyp
    unfold summarize_distribution at hmem
    rcases List.mem_map.mp hmem with ⟨gb, _, heq⟩
    simp only [DistRow.mk.injEq] at heq
    obtain ⟨h1, h2, h3⟩ := heq
    have hcell : distCellRows rows gb.1 gb.2 = [] := by
      rw [h1, h2]
      apply List.filter_eq_nil_iff.mpr
      intro r hr
      simp only [Bool.and_eq_true, decide_eq_true_eq]
      rintro ⟨hgg, hkk⟩
      exact hno r hr ⟨hgg, hkk⟩
    rw [hcell] at h3
    rw [← h3]
    rfl

/-- Witness for claim C4: the empty panel at max bucket 0 and the first grid
cell. -/
theorem summarize_dense_grid_witness :
    ((⟨cohortA, 0, 0, none⟩ : LongRow) ∈ summarize_long [] 0)
    ∧ (([] : List SRow).all (fun r =>
        !(decide (r.grade = cohortA) && decide (r.keyval = 0)))) = true
    ∧ ((0 : Nat) = 0 ∧ (none : Option ℚ) = none) :=
  ⟨by decide, by decide,
    (summarize_dense_grid [] 0 cohortA 0 0 none 0).2.1 (by decide) (by decide)⟩

/-- Claim C5: every row of the per-file merged panel has an English mastery
count within the English catalog size 6, a Math mastery count within the Math
catalog size 6 (never negative by type), and tot_mas equal to their sum,
hence at most 12. -/
theorem panel_mastery_bounds (wb : List Sheet) (cutoff : Option Int)
    (r : PanelRow) (h : r ∈ filePanel wb cutoff) :
    r.eng_mas ≤ ENG_TARGETS.length ∧ ENG_TARGETS.length = 6
    ∧ r.math_mas ≤ MATH_TARGETS.length ∧ MATH_TARGETS.length = 6
    ∧ r.tot_mas = r.eng_mas + r.math_mas ∧ r.tot_mas ≤ 12 := by
  unfold filePanel at h
  rw [List.mem_flatMap] at h
  rcases h with ⟨b, hb, h⟩
  rw [List.mem_flatMap] at h
  rcases h with ⟨e, he, h⟩
  rw [List.mem_flatMap] at h
  rcases h with ⟨m, hm, h⟩
  rw [List.mem_flatMap] at h
  rcases h with ⟨el, hel, h⟩
  rw [List.mem_map] at h
  rcases h with ⟨ml, hml, rfl⟩
  have hL1 : ENG_TARGETS.length = 6 := rfl
  have hL2 : MATH_TARGETS.length = 6 := rfl
  have heng : e ≤ 6 := by
    rcases mem_pickVals he with h0 | hmem
    · omega
    · have := count_mastery_le wb ENG_TARGETS cutoff b.sid e hmem
      omega
  have hmath : m ≤ 6 := by
    rcases mem_pickVals hm with h0 | hmem
    · omega
    · have := count_mastery_le wb MATH_TARGETS cutoff b.sid m hmem
      omega
  refine ⟨by simpa [hL1] using heng, hL1, by simpa [hL2] using hmath, hL2, rfl, ?_⟩
  show e + m ≤ 12
  omega

/-- Witness for claim C5: the first row of the sample workbook's panel. -/
theorem panel_mastery_bounds_witness :
    ((⟨1, "高3".data, some 50, some 50, some 40, 1, 0, 1, 0, 0⟩ : PanelRow)
        ∈ filePanel sampleWb (some (dt 2025 1 18)))
    ∧ ((1 : Nat) ≤ ENG_TARGETS.length ∧ ENG_TARGETS.length = 6
        ∧ (0 : Nat) ≤ MATH_TARGETS.length ∧ MATH_TARGETS.length = 6
        ∧ (1 : Nat) = 1 + 0 ∧ (1 : Nat) ≤ 12) := by
  refine ⟨by decide, ?_⟩
  exact panel_mastery_bounds sampleWb (some (dt 2025 1 18))
    ⟨1, "高3".data, some 50, some 50, some 40, 1, 0, 1, 0, 0⟩ (by decide)

/-- Counterexample for claim C2: with two sheets matching the same unit,
count_late_mastery does not take the earliest date across the sheets: student
1 completed at 50 (before the cutoff 100) in one sheet and at 300 in the
other, so under the claim the only row for student 1 carries late count 0,
yet the returned table contains the row with late count 1 (and a duplicated
student). -/
theorem count_late_multisheet_cex :
    (1, 1) ∈ count_late_mastery lateCexWb ENG_TARGETS (some 100)
    ∧ specLateCount lateCexWb ENG_TARGETS 100 1 = 0 := by
  constructor
  · decide
  · decide

/-- Claim C2 amended: provided every unit of the catalog has at most one
matching usable sheet, count_late_mastery with a resolved cutoff returns one
row per student appearing in the unit sheets, carrying the sum over the
catalog of the flags: earliest completion date of the student for the unit
strictly after the cutoff, a student without a completion date never late;
and with no resolved cutoff it returns the empty result set. -/
theorem count_late_amended (wb : List Sheet) (targets : List (List Char))
    (c : Int) (sid : Int) (n : Nat)
    (hone : (targets.all (fun t =>
        decide ((unitSheets wb targets t).length ≤ 1))) = true) :
    count_late_mastery wb targets none = []
    ∧ ((sid, n) ∈ count_late_mastery wb targets (some c)
        ↔ (specHasStudent wb targets sid = true
            ∧ n = specLateCount wb targets c sid)) := by
  have h1 : ∀ t ∈ targets, (unitSheets wb targets t).length ≤ 1 := by
    intro t ht
    have := List.all_eq_true.mp hone t ht
    simpa using this
  refine ⟨rfl, ?_⟩
  rw [count_late_rows wb targets c h1, mem_map_keyfun]
  constructor
  · rintro ⟨hm, rfl⟩
    refine ⟨?_, rfl⟩
    rw [List.mem_dedup, List.mem_flatMap] at hm
    rcases hm with ⟨f, hf, hk⟩
    rcases List.mem_map.mp hf with ⟨t, htt, rfl⟩
    unfold specHasStudent
    rw [List.any_eq_true]
    exact ⟨t, htt, (mem_keys_tgtLateFrame wb targets c t sid).mp hk⟩
  · rintro ⟨hs, rfl⟩
    refine ⟨?_, rfl⟩
    unfold specHasStudent at hs
    rw [List.any_eq_true] at hs
    rcases hs with ⟨t, htt, hany⟩
    rw [List.mem_dedup, List.mem_flatMap]
    exact ⟨tgtLateFrame wb targets c t, List.mem_map.mpr ⟨t, htt, rfl⟩,
      (mem_keys_tgtLateFrame wb targets c t sid).mpr hany⟩

/-- Witness for claim C2 amended: a workbook in which every English unit has
at most one matching sheet, evaluated at student 1. -/
theorem count_late_amended_witness :
    ((ENG_TARGETS.all (fun t =>
        decide ((unitSheets [lateSheetB] ENG_TARGETS t).length ≤ 1))) = true)
    ∧ (count_late_mastery [lateSheetB] ENG_TARGETS none = []
        ∧ (((1, 0) ∈ count_late_mastery [lateSheetB] ENG_TARGETS (some 100))
            ↔ (specHasStudent [lateSheetB] ENG_TARGETS 1 = true
                ∧ 0 = specLateCount [lateSheetB] ENG_TARGETS 100 1))) :=
  ⟨by decide, count_late_amended [lateSheetB] ENG_TARGETS 100 1 0 (by decide)⟩

/-- Claim C10: the students of the per-file merged panel are exactly the
students extracted from the file's exam-results sheets by read_exam; a
student appearing only in curriculum-unit sheets is silently excluded; and
the same holds for the concatenated panel over all files. -/
theorem panel_ids_iff (wb : List Sheet) (cutoff : Option Int)
    (files : List FileInput) (ov : List ((List Char) × Int)) (sid : Int) :
    ((∃ r ∈ filePanel wb cutoff, r.sid = sid) ↔ (∃ b ∈ read_exam wb, b.sid = sid))
    ∧ ((∃ r ∈ mainPanel files ov, r.sid = sid)
        ↔ (∃ f ∈ files, ∃ b ∈ read_exam f.sheets, b.sid = sid)) := by
  have key : ∀ (wb' : List Sheet) (c : Option Int),
      (∃ r ∈ filePanel wb' c, r.sid = sid) ↔ (∃ b ∈ read_exam wb', b.sid = sid) := by
    intro wb' c
    constructor
    · rintro ⟨r, hr, hsid⟩
      unfold filePanel at hr
      rw [List.mem_flatMap] at hr
      rcases hr with ⟨b, hb, hr⟩
      rw [List.mem_flatMap] at hr
      rcases hr with ⟨e, he, hr⟩
      rw [List.mem_flatMap] at hr
      rcases hr with ⟨m, hm, hr⟩
      rw [List.mem_flatMap] at hr
      rcases hr with ⟨el, hel, hr⟩
      rw [List.mem_map] at hr
      rcases hr with ⟨ml, hml, rfl⟩
      exact ⟨b, hb, hsid⟩
    · rintro ⟨b, hb, hsid⟩
      obtain ⟨e, he⟩ := List.exists_mem_of_ne_nil _
        (pickVals_ne_nil (count_mastery wb' ENG_TARGETS c) b.sid)
      obtain ⟨m, hm⟩ := List.exists_mem_of_ne_nil _
        (pickVals_ne_nil (count_mastery wb' MATH_TARGETS c) b.sid)
      obtain ⟨el, hel⟩ := List.exists_mem_of_ne_nil _
        (pickVals_ne_nil (count_late_mastery wb' ENG_TARGETS c) b.sid)
      obtain ⟨ml, hml⟩ := List.exists_mem_of_ne_nil _
        (pickVals_ne_nil (count_late_mastery wb' MATH_TARGETS c) b.sid)
      refine ⟨⟨b.sid, b.grade, b.eng, b.math, b.jpn, e, m, e + m, el, ml⟩, ?_, hsid⟩
      unfold filePanel
      rw [List.mem_flatMap]
      refine ⟨b, hb, ?_⟩
      rw [List.mem_flatMap]
      refine ⟨e, he, ?_⟩
      rw [List.mem_flatMap]
      refine ⟨m, hm, ?_⟩
      rw [List.mem_flatMap]
      refine ⟨el, hel, ?_⟩
      rw [List.mem_map]
      exact ⟨ml, hml, rfl⟩
  refine ⟨key wb cutoff, ?_⟩
  constructor
  · rintro ⟨r, hr, hsid⟩
    unfold mainPanel at hr
    rw [List.mem_flatMap] at hr
    rcases hr with ⟨f, hf, hr⟩
    exact ⟨f, hf, (key f.sheets (cutoff_for_stem f.stem ov)).mp ⟨r, hr, hsid⟩⟩
  · rintro ⟨f, hf, hb⟩
    rcases (key f.sheets (cutoff_for_stem f.stem ov)).mpr hb with ⟨r, hr, hsid⟩
    refine ⟨r, ?_, hsid⟩
    unfold mainPanel
    rw [List.mem_flatMap]
    exact ⟨f, hf, hr⟩

/-- Counterexample for claim C8: the output workbook of a run has 9 sheets
(the active long sheet plus eight save_sheet calls), not 8 as the claim
states; the claim even lists nine components (3 long, 3 wide, 2 distribution,
1 metadata). -/
theorem output_sheet_count_cex :
    ((mainWorkbook [plainFile] [] sampleTs).getD []).length = 9
    ∧ ¬ (((mainWorkbook [plainFile] [] sampleTs).getD []).length = 8) := by
  constructor
  · rfl
  · intro h
    rw [show ((mainWorkbook [plainFile] [] sampleTs).getD []).length = 9 from rfl] at h
    exact absurd h (by decide)

/-- Claim C8 amended: every run with at least one input file produces a
workbook of exactly 9 sheets in a fixed order: 3 long tables, 3 wide pivoted
tables, 2 late-completion distribution tables, and last the run-metadata
table whose rows carry the run timestamp, the source file name, the resolved
key, the resolved cutoff (empty when absent) and the distinct-student count
of that file's panel. -/
theorem workbook_structure_amended (files : List FileInput)
    (ov : List ((List Char) × Int)) (ts : List Char) (hne : files ≠ []) :
    ∃ ws, mainWorkbook files ov ts = some ws
      ∧ ws.map Prod.fst = outputSheetTitles
      ∧ ws.length = 9
      ∧ ws.getLast? = some ("集計メタデータ".data,
          WTable.metaT (files.map (metaRowFor ts ov))) := by
  have hie : ¬ files.isEmpty = true := by
    cases files with
    | nil => exact absurd rfl hne
    | cons a t => simp
  unfold mainWorkbook
  rw [if_neg hie]
  exact ⟨_, rfl, rfl, rfl, rfl⟩

/-- Witness for claim C8 amended: a single-file run. -/
theorem workbook_structure_witness :
    (([plainFile] : List FileInput) ≠ [])
    ∧ (∃ ws, mainWorkbook [plainFile] [] sampleTs = some ws
        ∧ ws.map Prod.fst = outputSheetTitles
        ∧ ws.length = 9
        ∧ ws.getLast? = some ("集計メタデータ".data,
            WTable.metaT ([plainFile].map (metaRowFor sampleTs [])))) :=
  ⟨List.cons_ne_nil plainFile [],
    workbook_structure_amended [plainFile] [] sampleTs (List.cons_ne_nil plainFile [])⟩
